import Mathlib

/-! Verification of the open62541pp filter expression algebra and of the
`Result<T>` wrapper.

The filter algebra (`ContentFilter` / `FilterTree` with `Negate` and
`Combine`, surfaced in C++ as `operator!`, `operator&&`, `operator||`) is
declared and exercised in `tests/ua_types.cpp`, but its implementation is
not part of the sources available here; the definitions below are
therefore modelled from the specification (sections 3, 4.2 and 4.3) and
validated against the concrete expectations of the test suite.

`Result<T>` is embedded from `include/open62541pp/Result.h`; the
`StatusCode` type it stores comes from the excluded protocol type system
and is modelled from the specification.
-/

namespace Opcua

/-- Modelled from the spec: a qualified name (namespace index and name),
one step of a `SimpleAttributeReference` browse path. The algebra treats
it as opaque payload data. -/
structure QualifiedName where
  namespaceIndex : Nat
  name : String
deriving DecidableEq

/-- Modelled from the spec: a protocol-typed scalar/variant value carried
by a `Literal` operand. Opaque to the algebra; a few representative
scalar shapes suffice for the embedding. -/
inductive Variant where
  | intVal : Int → Variant
  | strVal : String → Variant
  | nodeIdVal : Nat → Nat → Variant
deriving DecidableEq

/-- Modelled from the spec: one step of an `AttributeReference` relative
path (reference type, direction flags, target name). Opaque payload. -/
structure RelativePathElement where
  referenceTypeId : Nat
  isInverse : Bool
  includeSubtypes : Bool
  targetName : QualifiedName
deriving DecidableEq

/-- Modelled from the spec: payload of an `AttributeReference` operand:
`(typeId, browsePath, attributeId, indexRange)`. Opaque to the algebra. -/
structure AttributeReferencePayload where
  typeId : Nat
  browsePath : List RelativePathElement
  attributeId : Nat
  indexRange : String
deriving DecidableEq

/-- Modelled from the spec: payload of a `SimpleAttributeReference`
operand: `(typeDefinitionId, browsePath, attributeId, indexRange)`.
Opaque to the algebra. -/
structure SimpleAttributeReferencePayload where
  typeDefinitionId : Nat
  browsePath : List QualifiedName
  attributeId : Nat
  indexRange : String
deriving DecidableEq

/-- Modelled from the spec: the operand tagged union. `ElementReference`
holds the zero-based position of another element in the same tree
(an unsigned integer); the other three variants are opaque to the
combinator algebra. -/
inductive Operand where
  | elementReference : Nat → Operand
  | literal : Variant → Operand
  | attributeReference : AttributeReferencePayload → Operand
  | simpleAttributeReference : SimpleAttributeReferencePayload → Operand
deriving DecidableEq

/-- Modelled from the spec: the closed `FilterOperator` enumeration of the
wire protocol; the algebra treats the tags opaquely except for the three
logical operators `and`, `or`, `not`. -/
inductive FilterOperator where
  | equals
  | isNull
  | greaterThan
  | lessThan
  | greaterThanOrEqual
  | lessThanOrEqual
  | like
  | not
  | between
  | inList
  | and
  | or
  | cast
  | inView
  | ofType
  | relatedTo
  | bitwiseAnd
  | bitwiseOr
deriving DecidableEq

/-- Modelled from the spec: one `ContentFilterElement`: an operator tag and
an ordered sequence of operands. -/
structure FilterElement where
  filterOperator : FilterOperator
  operands : List Operand
deriving DecidableEq

/-- Modelled from the spec: a `FilterTree` (`ContentFilter`): an ordered
sequence of filter elements, element 0 being the logical root. -/
structure FilterTree where
  elements : List FilterElement
deriving DecidableEq

/-- Modelled from the spec: the two error kinds of the filter tree API. -/
inductive FilterTreeError where
  | invalidReference
  | indexOutOfRange
deriving DecidableEq

def FilterTree.elementCount (t : FilterTree) : Nat :=
  t.elements.length

/-- An operand is in range for a tree of `n` elements when an
`ElementReference` targets a position `< n`; other variants impose
nothing. -/
def Operand.validIn (n : Nat) : Operand → Bool
  | .elementReference i => i < n
  | _ => true

def FilterElement.validIn (n : Nat) (e : FilterElement) : Bool :=
  e.operands.all (Operand.validIn n)

def FilterTree.valid (t : FilterTree) : Bool :=
  t.elements.all (FilterElement.validIn t.elements.length)

/-- Modelled from the spec: `FilterTree::fromElements` fails with
`FilterTreeError::InvalidReference` when some `ElementReference` in the
supplied list targets a position that is not a valid index into the list;
otherwise it succeeds with exactly the input element sequence. -/
def FilterTree.fromElements (elements : List FilterElement) :
    Except FilterTreeError FilterTree :=
  if elements.all (FilterElement.validIn elements.length) then
    .ok ⟨elements⟩
  else
    .error .invalidReference

/-- Modelled from the spec: `renumber` on one operand: an
`ElementReference(i)` payload becomes `ElementReference(i + offset)`;
every other variant passes through unchanged. -/
def Operand.renumber (offset : Nat) : Operand → Operand
  | .elementReference i => .elementReference (i + offset)
  | o => o

/-- Modelled from the spec: `renumber` on one element: the operator tag is
kept and every operand is renumbered. -/
def FilterElement.renumber (offset : Nat) (e : FilterElement) : FilterElement :=
  ⟨e.filterOperator, e.operands.map (Operand.renumber offset)⟩

/-- Modelled from the spec: `renumber(t, offset)`: a copy of every element
of `t` with all element references shifted by `offset`. -/
def FilterTree.renumber (t : FilterTree) (offset : Nat) : List FilterElement :=
  t.elements.map (FilterElement.renumber offset)

/-- Modelled from the spec: `Negate(tree)` (C++ `operator!`): a new root
`{Not, [ElementReference(1)]}` followed by the input tree renumbered with
offset 1. -/
def FilterTree.negate (t : FilterTree) : FilterTree :=
  ⟨⟨.not, [.elementReference 1]⟩ :: t.renumber 1⟩

/-- Modelled from the spec: `Combine(lhs, rhs, logicalOp)` (C++
`operator&&` / `operator||`): a new root
`{logicalOp, [ElementReference(1), ElementReference(1 + n)]}` with
`n = lhs.elementCount()`, followed by `lhs` renumbered with offset 1 and
`rhs` renumbered with offset `1 + n`. -/
def FilterTree.combine (lhs rhs : FilterTree) (op : FilterOperator) : FilterTree :=
  ⟨⟨op, [.elementReference 1, .elementReference (1 + lhs.elementCount)]⟩
    :: (lhs.renumber 1 ++ rhs.renumber (1 + lhs.elementCount))⟩

/-- The leaf element of `tests/ua_types.cpp`,
`TEST_CASE("ContentFilter(Element) operators")`:
`{GreaterThan, [SimpleAttributeOperand(BaseEventType, ["Severity"], Value), Literal(200)]}`. -/
def filterElementE : FilterElement :=
  ⟨.greaterThan,
    [.simpleAttributeReference ⟨2041, [⟨0, "Severity"⟩], 13, ""⟩,
     .literal (.intVal 200)]⟩

/-- One-element ("leaf") tree built from `filterElementE`. -/
def treeE : FilterTree :=
  ⟨[filterElementE]⟩

/-- The three-element filter of `tests/ua_types.cpp`:
root `{And, [ElementReference(1), ElementReference(2)]}`, then
`{OfType, [Literal(BaseEventType)]}`, then
`{Equals, [Literal(99), Literal(99)]}`. -/
def treeF : FilterTree :=
  ⟨[⟨.and, [.elementReference 1, .elementReference 2]⟩,
    ⟨.ofType, [.literal (.nodeIdVal 0 2041)]⟩,
    ⟨.equals, [.literal (.intVal 99), .literal (.intVal 99)]⟩]⟩

example : treeE.valid = true := by decide
example : treeF.valid = true := by decide

example : (treeE.combine treeE .and).elementCount = 3 := by decide
example : (treeE.combine treeF .and).elementCount = 5 := by decide
example : (treeF.combine treeE .and).elementCount = 5 := by decide
example : (treeF.combine treeF .and).elementCount = 7 := by decide
example : (treeF.combine treeF .and).elements[0]? =
    some ⟨.and, [.elementReference 1, .elementReference 4]⟩ := by decide
example : ((treeF.combine treeF .and).elements[1]?).map FilterElement.operands =
    some [.elementReference 2, .elementReference 3] := by decide
example : ((treeF.combine treeF .and).elements[4]?).map FilterElement.operands =
    some [.elementReference 5, .elementReference 6] := by decide
example : treeE.negate.elementCount = 2 := by decide
example : treeF.negate.elementCount = 4 := by decide
example : treeF.negate.elements[0]? = some ⟨.not, [.elementReference 1]⟩ := by decide
example : ((treeF.negate.elements[1]?).map FilterElement.operands) =
    some [.elementReference 2, .elementReference 3] := by decide

/-! Helper lemmas on the filter algebra. -/

theorem cons_append_get_left {α : Type} (x : α) (l₁ l₂ : List α) (k : Nat)
    (hk : k < l₁.length) : (x :: (l₁ ++ l₂))[1 + k]? = l₁[k]? := by
  rw [Nat.add_comm, List.getElem?_cons_succ, List.getElem?_append_left hk]

theorem cons_append_get_right {α : Type} (x : α) (l₁ l₂ : List α) (k : Nat) :
    (x :: (l₁ ++ l₂))[1 + l₁.length + k]? = l₂[k]? := by
  have h : 1 + l₁.length + k = (l₁.length + k) + 1 := by omega
  rw [h, List.getElem?_cons_succ, List.getElem?_append_right (by omega)]
  congr 1
  omega

theorem renumber_length (t : FilterTree) (off : Nat) :
    (t.renumber off).length = t.elementCount := by
  simp [FilterTree.renumber, FilterTree.elementCount]

theorem renumber_get (t : FilterTree) (off k : Nat) :
    (t.renumber off)[k]? = (t.elements[k]?).map (FilterElement.renumber off) :=
  List.getElem?_map _ _ _

theorem combine_count (lhs rhs : FilterTree) (op : FilterOperator) :
    (lhs.combine rhs op).elementCount = 1 + lhs.elementCount + rhs.elementCount := by
  simp [FilterTree.combine, FilterTree.elementCount, FilterTree.renumber]
  omega

theorem negate_count (t : FilterTree) :
    t.negate.elementCount = t.elementCount + 1 := by
  simp [FilterTree.negate, FilterTree.elementCount, FilterTree.renumber]

theorem combine_get_zero (lhs rhs : FilterTree) (op : FilterOperator) :
    (lhs.combine rhs op).elements[0]? =
      some ⟨op, [.elementReference 1, .elementReference (1 + lhs.elementCount)]⟩ :=
  List.getElem?_cons_zero

theorem combine_get_left (lhs rhs : FilterTree) (op : FilterOperator) (k : Nat)
    (hk : k < lhs.elementCount) :
    (lhs.combine rhs op).elements[1 + k]? =
      (lhs.elements[k]?).map (FilterElement.renumber 1) := by
  have h := cons_append_get_left
    (⟨op, [.elementReference 1, .elementReference (1 + lhs.elementCount)]⟩ : FilterElement)
    (lhs.renumber 1) (rhs.renumber (1 + lhs.elementCount)) k
    (by rw [renumber_length]; exact hk)
  exact h.trans (renumber_get lhs 1 k)

theorem combine_get_right (lhs rhs : FilterTree) (op : FilterOperator) (k : Nat) :
    (lhs.combine rhs op).elements[1 + lhs.elementCount + k]? =
      (rhs.elements[k]?).map (FilterElement.renumber (1 + lhs.elementCount)) := by
  have h := cons_append_get_right
    (⟨op, [.elementReference 1, .elementReference (1 + lhs.elementCount)]⟩ : FilterElement)
    (lhs.renumber 1) (rhs.renumber (1 + lhs.elementCount)) k
  rw [renumber_length] at h
  exact h.trans (renumber_get rhs (1 + lhs.elementCount) k)

theorem negate_get (t : FilterTree) (k : Nat) :
    t.negate.elements[1 + k]? = (t.elements[k]?).map (FilterElement.renumber 1) := by
  have h : t.negate.elements[1 + k]? = (t.renumber 1)[k]? := by
    rw [Nat.add_comm]
    exact List.getElem?_cons_succ
  exact h.trans (renumber_get t 1 k)

theorem renumberElement_get (e : FilterElement) (off j : Nat) :
    (FilterElement.renumber off e).operands[j]? =
      (e.operands[j]?).map (Operand.renumber off) :=
  List.getElem?_map _ _ _

theorem renumberElement_operator (e : FilterElement) (off : Nat) :
    (FilterElement.renumber off e).filterOperator = e.filterOperator :=
  rfl

theorem renumberOperand_ref (off i : Nat) :
    Operand.renumber off (.elementReference i) = .elementReference (i + off) :=
  rfl

theorem renumberOperand_nonref (off : Nat) (o : Operand)
    (h : ∀ i, o ≠ Operand.elementReference i) : Operand.renumber off o = o := by
  cases o with
  | elementReference i => exact absurd rfl (h i)
  | literal v => rfl
  | attributeReference p => rfl
  | simpleAttributeReference p => rfl

theorem validIn_iff (n : Nat) (e : FilterElement) :
    FilterElement.validIn n e = true ↔
      ∀ i, Operand.elementReference i ∈ e.operands → i < n := by
  rw [FilterElement.validIn, List.all_eq_true]
  constructor
  · intro h i hi
    have := h _ hi
    simpa [Operand.validIn] using this
  · intro h o ho
    cases o with
    | elementReference i => simpa [Operand.validIn] using h i ho
    | literal v => rfl
    | attributeReference p => rfl
    | simpleAttributeReference p => rfl

theorem valid_refs_lt (t : FilterTree) (ht : t.valid = true) :
    ∀ e ∈ t.elements, ∀ i, Operand.elementReference i ∈ e.operands →
      i < t.elementCount := by
  rw [FilterTree.valid, List.all_eq_true] at ht
  intro e he i hi
  exact (validIn_iff _ _).1 (ht e he) i hi

/-! Claim theorems for the combinator algebra. -/

/-- C1: for valid trees `lhs` (with `n = lhs.elementCount`) and `rhs` and
`op ∈ {And, Or}`, `Combine(lhs, rhs, op)` has at position 0 an element
with operator `op` and operands exactly
`[ElementReference(1), ElementReference(1 + n)]`; the renumbered elements
of `lhs` occupy positions `1..n` and the renumbered elements of `rhs`
occupy positions `n+1..n+m`. -/
theorem combine_structure (lhs rhs : FilterTree) (op : FilterOperator)
    (hop : op = .and ∨ op = .or) (hl : lhs.valid = true) (hr : rhs.valid = true) :
    (lhs.combine rhs op).elements[0]? =
        some ⟨op, [.elementReference 1, .elementReference (1 + lhs.elementCount)]⟩
      ∧ (∀ k, k < lhs.elementCount →
          (lhs.combine rhs op).elements[1 + k]? =
            (lhs.elements[k]?).map (FilterElement.renumber 1))
      ∧ (∀ k, k < rhs.elementCount →
          (lhs.combine rhs op).elements[1 + lhs.elementCount + k]? =
            (rhs.elements[k]?).map (FilterElement.renumber (1 + lhs.elementCount))) :=
  ⟨combine_get_zero lhs rhs op,
   fun k hk => combine_get_left lhs rhs op k hk,
   fun k _ => combine_get_right lhs rhs op k⟩

/-- Witness for C1 at the concrete trees of the test suite:
`treeF && treeE`. -/
theorem combine_structure_witness :
    (treeF.combine treeE .and).elements[0]? =
        some ⟨.and, [.elementReference 1, .elementReference 4]⟩
      ∧ (treeF.combine treeE .and).elements[1 + 1]? =
          (treeF.elements[1]?).map (FilterElement.renumber 1)
      ∧ (treeF.combine treeE .and).elements[1 + treeF.elementCount + 0]? =
          (treeE.elements[0]?).map (FilterElement.renumber (1 + treeF.elementCount)) := by
  have h := combine_structure treeF treeE .and (Or.inl rfl) (by decide) (by decide)
  exact ⟨h.1, h.2.1 1 (by decide), h.2.2 0 (by decide)⟩

/-- C3: for every valid tree `t`, `Negate(t)` has `t.elementCount + 1`
elements, element 0 is `{Not, [ElementReference(1)]}`, and positions
`1..n` hold a copy of every element of `t` in order in which every
`ElementReference(i)` is replaced by `ElementReference(i + 1)` and all
other operand variants are unchanged. -/
theorem negate_structure (t : FilterTree) (ht : t.valid = true) :
    t.negate.elementCount = t.elementCount + 1
      ∧ t.negate.elements[0]? = some ⟨.not, [.elementReference 1]⟩
      ∧ (∀ k, t.negate.elements[1 + k]? =
          (t.elements[k]?).map (FilterElement.renumber 1))
      ∧ (∀ (k : Nat) (e : FilterElement), t.elements[k]? = some e →
          ∃ e', t.negate.elements[1 + k]? = some e'
            ∧ e'.filterOperator = e.filterOperator
            ∧ (∀ (j i : Nat), e.operands[j]? = some (Operand.elementReference i) →
                e'.operands[j]? = some (Operand.elementReference (i + 1)))
            ∧ (∀ (j : Nat) (o : Operand), e.operands[j]? = some o → (∀ i, o ≠ Operand.elementReference i) →
                e'.operands[j]? = some o)) := by
  refine ⟨negate_count t, List.getElem?_cons_zero, negate_get t, ?_⟩
  intro k e hke
  refine ⟨FilterElement.renumber 1 e, ?_, rfl, ?_, ?_⟩
  · rw [negate_get t k, hke]
    rfl
  · intro j i hj
    rw [renumberElement_get, hj]
    rfl
  · intro j o hj hno
    rw [renumberElement_get, hj, Option.map_some', renumberOperand_nonref 1 o hno]

/-- Witness for C3 at the concrete tree `treeF` of the test suite. -/
theorem negate_structure_witness :
    treeF.negate.elementCount = treeF.elementCount + 1
      ∧ treeF.negate.elements[0]? = some ⟨.not, [.elementReference 1]⟩
      ∧ treeF.negate.elements[1 + 0]? =
          (treeF.elements[0]?).map (FilterElement.renumber 1) := by
  have h := negate_structure treeF (by decide)
  exact ⟨h.1, h.2.1, h.2.2.1 0⟩

/-- C4: `Negate` always adds exactly one element, and `Combine` always
produces exactly `1 + lhs.elementCount + rhs.elementCount` elements. -/
theorem size_laws (t lhs rhs : FilterTree) (op : FilterOperator)
    (ht : t.valid = true) (hl : lhs.valid = true) (hr : rhs.valid = true)
    (hop : op = .and ∨ op = .or) :
    t.negate.elementCount = t.elementCount + 1
      ∧ (lhs.combine rhs op).elementCount =
          1 + lhs.elementCount + rhs.elementCount :=
  ⟨negate_count t, combine_count lhs rhs op⟩

/-- Witness for C4 at the concrete trees of the test suite. -/
theorem size_laws_witness :
    treeE.negate.elementCount = treeE.elementCount + 1
      ∧ (treeF.combine treeE .or).elementCount =
          1 + treeF.elementCount + treeE.elementCount :=
  size_laws treeE treeF treeE .or (by decide) (by decide) (by decide) (Or.inr rfl)

/-- C2: renumbering correctness of `Combine`: every `ElementReference(i)`
in the element of `lhs` at original position `k` appears as
`ElementReference(i + 1)` in the same operand slot of the output element
at position `1 + k`; every `ElementReference(i)` in the element of `rhs`
at original position `k` appears as
`ElementReference(i + 1 + lhs.elementCount)` in the same slot of the
output element at position `1 + lhs.elementCount + k`; all operands that
are not element references are copied unchanged. -/
theorem combine_renumbering (lhs rhs : FilterTree) (op : FilterOperator)
    (hop : op = .and ∨ op = .or) (hl : lhs.valid = true) (hr : rhs.valid = true) :
    (∀ (k : Nat) (e : FilterElement), lhs.elements[k]? = some e →
      ∃ e', (lhs.combine rhs op).elements[1 + k]? = some e'
        ∧ e'.filterOperator = e.filterOperator
        ∧ (∀ (j i : Nat), e.operands[j]? = some (Operand.elementReference i) →
            e'.operands[j]? = some (Operand.elementReference (i + 1)))
        ∧ (∀ (j : Nat) (o : Operand), e.operands[j]? = some o →
            (∀ i, o ≠ Operand.elementReference i) → e'.operands[j]? = some o))
    ∧ (∀ (k : Nat) (e : FilterElement), rhs.elements[k]? = some e →
      ∃ e', (lhs.combine rhs op).elements[1 + lhs.elementCount + k]? = some e'
        ∧ e'.filterOperator = e.filterOperator
        ∧ (∀ (j i : Nat), e.operands[j]? = some (Operand.elementReference i) →
            e'.operands[j]? = some (Operand.elementReference (i + 1 + lhs.elementCount)))
        ∧ (∀ (j : Nat) (o : Operand), e.operands[j]? = some o →
            (∀ i, o ≠ Operand.elementReference i) → e'.operands[j]? = some o)) := by
  constructor
  · intro k e hke
    have hk : k < lhs.elementCount := (List.getElem?_eq_some.mp hke).1
    refine ⟨FilterElement.renumber 1 e, ?_, rfl, ?_, ?_⟩
    · rw [combine_get_left lhs rhs op k hk, hke]
      rfl
    · intro j i hj
      rw [renumberElement_get, hj]
      rfl
    · intro j o hj hno
      rw [renumberElement_get, hj, Option.map_some', renumberOperand_nonref 1 o hno]
  · intro k e hke
    refine ⟨FilterElement.renumber (1 + lhs.elementCount) e, ?_, rfl, ?_, ?_⟩
    · rw [combine_get_right lhs rhs op k, hke]
      rfl
    · intro j i hj
      rw [renumberElement_get, hj, Option.map_some', renumberOperand_ref]
      have harith : i + (1 + lhs.elementCount) = i + 1 + lhs.elementCount := by
        omega
      rw [harith]
    · intro j o hj hno
      rw [renumberElement_get, hj, Option.map_some',
        renumberOperand_nonref (1 + lhs.elementCount) o hno]

/-- Witness for C2 at `treeF && treeF`: the root reference
`ElementReference(1)` of the left copy becomes `ElementReference(2)` at
position 1, the one of the right copy becomes `ElementReference(5)` at
position 4. -/
theorem combine_renumbering_witness :
    (∃ e', (treeF.combine treeF .and).elements[1 + 0]? = some e'
      ∧ e'.filterOperator = (⟨.and, [.elementReference 1, .elementReference 2]⟩ :
          FilterElement).filterOperator
      ∧ (∀ (j i : Nat),
          (⟨.and, [.elementReference 1, .elementReference 2]⟩ :
            FilterElement).operands[j]? = some (Operand.elementReference i) →
          e'.operands[j]? = some (Operand.elementReference (i + 1)))
      ∧ (∀ (j : Nat) (o : Operand),
          (⟨.and, [.elementReference 1, .elementReference 2]⟩ :
            FilterElement).operands[j]? = some o →
          (∀ i, o ≠ Operand.elementReference i) → e'.operands[j]? = some o))
    ∧ (∃ e', (treeF.combine treeF .and).elements[1 + treeF.elementCount + 0]? = some e'
      ∧ e'.filterOperator = (⟨.and, [.elementReference 1, .elementReference 2]⟩ :
          FilterElement).filterOperator
      ∧ (∀ (j i : Nat),
          (⟨.and, [.elementReference 1, .elementReference 2]⟩ :
            FilterElement).operands[j]? = some (Operand.elementReference i) →
          e'.operands[j]? = some (Operand.elementReference (i + 1 + treeF.elementCount)))
      ∧ (∀ (j : Nat) (o : Operand),
          (⟨.and, [.elementReference 1, .elementReference 2]⟩ :
            FilterElement).operands[j]? = some o →
          (∀ i, o ≠ Operand.elementReference i) → e'.operands[j]? = some o)) := by
  have h := combine_renumbering treeF treeF .and (Or.inl rfl) (by decide) (by decide)
  exact ⟨h.1 0 ⟨.and, [.elementReference 1, .elementReference 2]⟩ (by decide),
         h.2 0 ⟨.and, [.elementReference 1, .elementReference 2]⟩ (by decide)⟩

/-- C7: self-combination is well-defined: `Combine(t, t, And)` has
`1 + 2 * t.elementCount` elements; its left copy occupies positions
`1..n` renumbered with offset 1 and its right copy occupies positions
`n+1..2n` renumbered with offset `1 + n`; every element reference inside
the left copy lies in `[1, n]` and every element reference inside the
right copy lies in `[n+1, 2n]`, so the two copies reference disjoint
index ranges. -/
theorem combine_self (t : FilterTree) (ht : t.valid = true) :
    (t.combine t .and).elementCount = 1 + 2 * t.elementCount
    ∧ (∀ k, k < t.elementCount →
        (t.combine t .and).elements[1 + k]? =
          (t.elements[k]?).map (FilterElement.renumber 1))
    ∧ (∀ k, k < t.elementCount →
        (t.combine t .and).elements[1 + t.elementCount + k]? =
          (t.elements[k]?).map (FilterElement.renumber (1 + t.elementCount)))
    ∧ (∀ (k : Nat) (e' : FilterElement), k < t.elementCount →
        (t.combine t .and).elements[1 + k]? = some e' →
        ∀ i, Operand.elementReference i ∈ e'.operands →
          1 ≤ i ∧ i ≤ t.elementCount)
    ∧ (∀ (k : Nat) (e' : FilterElement), k < t.elementCount →
        (t.combine t .and).elements[1 + t.elementCount + k]? = some e' →
        ∀ i, Operand.elementReference i ∈ e'.operands →
          t.elementCount + 1 ≤ i ∧ i ≤ 2 * t.elementCount) := by
  refine ⟨by rw [combine_count]; omega,
    fun k hk => combine_get_left t t .and k hk,
    fun k _ => combine_get_right t t .and k, ?_, ?_⟩
  · intro k e' hk he' i hi
    rw [combine_get_left t t .and k hk] at he'
    obtain ⟨e, hke⟩ : ∃ e, t.elements[k]? = some e := by
      cases h : t.elements[k]? with
      | none => rw [h] at he'; cases he'
      | some e => exact ⟨e, rfl⟩
    rw [hke, Option.map_some'] at he'
    obtain rfl : FilterElement.renumber 1 e = e' := Option.some.inj he'
    obtain ⟨o, ho, hoi⟩ := List.mem_map.mp hi
    cases o with
    | elementReference m =>
        obtain rfl : m + 1 = i := Operand.elementReference.inj hoi
        have hm := valid_refs_lt t ht e (List.getElem?_mem hke) m ho
        omega
    | literal v => cases hoi
    | attributeReference p => cases hoi
    | simpleAttributeReference p => cases hoi
  · intro k e' hk he' i hi
    rw [combine_get_right t t .and k] at he'
    obtain ⟨e, hke⟩ : ∃ e, t.elements[k]? = some e := by
      cases h : t.elements[k]? with
      | none => rw [h] at he'; cases he'
      | some e => exact ⟨e, rfl⟩
    rw [hke, Option.map_some'] at he'
    obtain rfl : FilterElement.renumber (1 + t.elementCount) e = e' :=
      Option.some.inj he'
    obtain ⟨o, ho, hoi⟩ := List.mem_map.mp hi
    cases o with
    | elementReference m =>
        obtain rfl : m + (1 + t.elementCount) = i := Operand.elementReference.inj hoi
        have hm := valid_refs_lt t ht e (List.getElem?_mem hke) m ho
        omega
    | literal v => cases hoi
    | attributeReference p => cases hoi
    | simpleAttributeReference p => cases hoi

/-- Witness for C7 at the three-element tree `treeF` of the test suite:
the right copy's root at position 4 holds `Ref(5)` and `Ref(6)`. -/
theorem combine_self_witness :
    (treeF.combine treeF .and).elementCount = 1 + 2 * treeF.elementCount
    ∧ (treeF.combine treeF .and).elements[1 + treeF.elementCount + 0]? =
        (treeF.elements[0]?).map (FilterElement.renumber (1 + treeF.elementCount)) := by
  have h := combine_self treeF (by decide)
  exact ⟨h.1, h.2.2.1 0 (by decide)⟩

/-- C8: for all valid trees `a` and `b`, `a && b` and `a || b` agree
element for element except for the operator tag of element 0, which is
`And` for `&&` and `Or` for `||`; in particular the element counts and
all operand lists (element 0 included) coincide. -/
theorem combine_and_or_agree (a b : FilterTree) (ha : a.valid = true)
    (hb : b.valid = true) :
    (a.combine b .and).elementCount = (a.combine b .or).elementCount
    ∧ (∀ k, 0 < k →
        (a.combine b .and).elements[k]? = (a.combine b .or).elements[k]?)
    ∧ ((a.combine b .and).elements[0]?).map FilterElement.operands =
        ((a.combine b .or).elements[0]?).map FilterElement.operands
    ∧ ((a.combine b .and).elements[0]?).map FilterElement.filterOperator =
        some .and
    ∧ ((a.combine b .or).elements[0]?).map FilterElement.filterOperator =
        some .or := by
  refine ⟨rfl, ?_, ?_, ?_, ?_⟩
  · intro k hk
    obtain ⟨j, rfl⟩ : ∃ j, k = 1 + j := ⟨k - 1, by omega⟩
    by_cases hj : j < a.elementCount
    · rw [combine_get_left a b .and j hj, combine_get_left a b .or j hj]
    · have hj' : j = a.elementCount + (j - a.elementCount) := by omega
      rw [hj']
      have h1 := combine_get_right a b .and (j - a.elementCount)
      have h2 := combine_get_right a b .or (j - a.elementCount)
      rw [← Nat.add_assoc]
      rw [h1, h2]
  · rw [combine_get_zero, combine_get_zero]
    rfl
  · rw [combine_get_zero]
    rfl
  · rw [combine_get_zero]
    rfl

/-- Witness for C8 at the concrete trees of the test suite. -/
theorem combine_and_or_agree_witness :
    (treeE.combine treeF .and).elementCount = (treeE.combine treeF .or).elementCount
    ∧ (treeE.combine treeF .and).elements[2]? = (treeE.combine treeF .or).elements[2]?
    ∧ ((treeE.combine treeF .and).elements[0]?).map FilterElement.filterOperator =
        some .and := by
  have h := combine_and_or_agree treeE treeF (by decide) (by decide)
  exact ⟨h.1, h.2.1 2 (by decide), h.2.2.2.1⟩

/-- A one-element list whose only element references positions 1 and 2:
both references are out of range, so construction must fail. -/
def badElements : List FilterElement :=
  [⟨.and, [.elementReference 1, .elementReference 2]⟩]

/-- C5: `FilterTree::fromElements` fails with
`FilterTreeError::InvalidReference` if and only if some
`ElementReference` in the supplied list targets a position `≥` the number
of supplied elements (the index is an unsigned integer, so a negative
target cannot occur); with only in-range references construction
succeeds and the tree holds exactly the input element sequence. -/
theorem fromElements_spec (elements : List FilterElement) :
    (FilterTree.fromElements elements = .error .invalidReference ↔
      ∃ e ∈ elements, ∃ i, Operand.elementReference i ∈ e.operands ∧
        elements.length ≤ i)
    ∧ ((∀ e ∈ elements, ∀ i, Operand.elementReference i ∈ e.operands →
          i < elements.length) →
        FilterTree.fromElements elements = .ok ⟨elements⟩) := by
  have hvalid : elements.all (FilterElement.validIn elements.length) = true ↔
      ∀ e ∈ elements, ∀ i, Operand.elementReference i ∈ e.operands →
        i < elements.length := by
    rw [List.all_eq_true]
    constructor
    · intro h e he
      exact (validIn_iff _ _).1 (h e he)
    · intro h e he
      exact (validIn_iff _ _).2 (h e he)
  constructor
  · unfold FilterTree.fromElements
    by_cases h : elements.all (FilterElement.validIn elements.length) = true
    · rw [if_pos h]
      constructor
      · intro hfalse
        exact Except.noConfusion hfalse
      · rintro ⟨e, he, i, hi, hni⟩
        have := hvalid.1 h e he i hi
        omega
    · rw [if_neg h]
      constructor
      · intro _
        rw [hvalid] at h
        push_neg at h
        obtain ⟨e, he, i, hi, hni⟩ := h
        exact ⟨e, he, i, hi, by omega⟩
      · intro _
        rfl
  · intro hall
    unfold FilterTree.fromElements
    rw [if_pos (hvalid.2 hall)]

/-- Witness for C5: the out-of-range list `badElements` is rejected with
`InvalidReference` and the in-range element list of `treeF` round-trips. -/
theorem fromElements_spec_witness :
    FilterTree.fromElements badElements = .error .invalidReference
    ∧ FilterTree.fromElements treeF.elements = .ok ⟨treeF.elements⟩ := by
  refine ⟨(fromElements_spec badElements).1.mpr ?_, (fromElements_spec treeF.elements).2 ?_⟩
  · exact ⟨⟨.and, [.elementReference 1, .elementReference 2]⟩, by decide, 1, by decide, by decide⟩
  · intro e he i hi
    fin_cases he <;> (simp_all [treeF]; try omega)

/-! The `Result` type, embedded from `include/open62541pp/Result.h`. -/

/-- Modelled from the spec: `StatusCode` from the excluded protocol type
system (`types/Builtin.h` / `ErrorHandling.h` are not among the available
sources): a 32-bit protocol status code whose top two severity bits
classify it as good (`00`), uncertain (`01`) or bad (`10`/`11`). -/
structure StatusCode where
  code : Nat
deriving DecidableEq

/-- Modelled from the spec: a status code is bad when its severity bits
(the top two bits of the 32-bit value) are `10` or `11`. -/
def StatusCode.isBad (c : StatusCode) : Bool :=
  decide (2 ≤ c.code % 4294967296 / 1073741824)

/-- Modelled from the spec: `StatusCode::throwIfBad` raises the code as an
exception when it is bad and does nothing otherwise. -/
def StatusCode.throwIfBad (c : StatusCode) : Except StatusCode Unit :=
  if c.isBad then .error c else .ok ()

/-- `BadResult` wraps a bad status code (`Result.h`, lines 14-27); its
constructor asserts `code.isBad()`, carried here as a hypothesis of the
theorems. -/
structure BadResult where
  code : StatusCode
deriving DecidableEq

/-- `Result<T>` (`Result.h`, lines 36-208): a status code together with an
optional value. -/
structure Result (T : Type) where
  code : StatusCode
  maybeValue : Option T
deriving DecidableEq

/-- `Result(const T& value)` / `Result(T&& value)`: good (zero-initialized)
status code and the given value (`Result.h`, lines 48-53). -/
def Result.ofValue {T : Type} (value : T) : Result T :=
  ⟨⟨0⟩, some value⟩

/-- `Result(BadResult error)`: the error's code and no value
(`Result.h`, lines 58-59). -/
def Result.ofBadResult {T : Type} (error : BadResult) : Result T :=
  ⟨error.code, none⟩

/-- `Result(StatusCode code, const T& value)`: the given code and value;
the constructor asserts `!code.isBad()` (`Result.h`, lines 61-73). -/
def Result.ofCodeValue {T : Type} (code : StatusCode) (value : T) : Result T :=
  ⟨code, some value⟩

/-- `Result<T>::hasValue` (`Result.h`, lines 143-145). -/
def Result.hasValue {T : Type} (r : Result T) : Bool :=
  r.maybeValue.isSome

/-- `operator*`: dereference the stored optional; dereferencing an empty
optional is undefined behavior in the C++ source, modelled as the default
value of the type (`Result.h`, lines 105-131). -/
def Result.deref {T : Type} [Inhabited T] (r : Result T) : T :=
  r.maybeValue.getD default

/-- `Result<T>::value`: `checkIsBad()` (which throws via
`code().throwIfBad()`) and then dereference (`Result.h`, lines 150-177
and 202-204). -/
def Result.value {T : Type} [Inhabited T] (r : Result T) : Except StatusCode T :=
  match r.code.throwIfBad with
  | .error c => .error c
  | .ok _ => .ok r.deref

/-- `Result<T>::valueOr(defaultValue)`: the stored value when the code is
not bad, the default value otherwise (`Result.h`, lines 183-195). -/
def Result.valueOr {T : Type} [Inhabited T] (r : Result T) (defaultValue : T) : T :=
  if !r.code.isBad then r.deref else defaultValue

/-- C9: a `Result<T>` constructed from `BadResult(c)` has `code() == c`,
`hasValue() == false`, and `value()` throws instead of returning; a
`Result<T>` constructed from a value `v` has the good (zero) status code
and `hasValue() == true`, and `value()` returns `v` without throwing.
In general `value()` throws if and only if the stored status code is
bad. -/
theorem result_value_spec {T : Type} [Inhabited T] (c : StatusCode) (v : T)
    (hc : c.isBad = true) :
    (Result.ofBadResult (T := T) ⟨c⟩).code = c
    ∧ (Result.ofBadResult (T := T) ⟨c⟩).hasValue = false
    ∧ (Result.ofBadResult (T := T) ⟨c⟩).value = .error c
    ∧ (Result.ofValue v).code = ⟨0⟩
    ∧ (⟨0⟩ : StatusCode).isBad = false
    ∧ (Result.ofValue v).hasValue = true
    ∧ (Result.ofValue v).value = .ok v
    ∧ (∀ r : Result T, (∃ c', r.value = .error c') ↔ r.code.isBad = true) := by
  refine ⟨rfl, rfl, ?_, rfl, by decide, rfl, ?_, ?_⟩
  · rw [Result.value]
    simp [Result.ofBadResult, StatusCode.throwIfBad, hc]
  · rw [Result.value]
    simp [Result.ofValue, StatusCode.throwIfBad, StatusCode.isBad, Result.deref]
  · intro r
    rw [Result.value, StatusCode.throwIfBad]
    by_cases hb : r.code.isBad = true
    · simp [hb]
    · simp [hb]

/-- Witness for C9 at `T = Nat`, the bad code `0x80000000` and the value
`7`. -/
theorem result_value_spec_witness :
    (Result.ofBadResult (T := Nat) ⟨⟨2147483648⟩⟩).value = .error ⟨2147483648⟩
    ∧ (Result.ofValue (7 : Nat)).value = .ok 7 := by
  have h := result_value_spec (T := Nat) ⟨2147483648⟩ 7 (by decide)
  exact ⟨h.2.2.1, h.2.2.2.2.2.2.1⟩

/-- C10: `valueOr(d)` returns the stored value when the code is not bad
and the default `d` when the code is bad; on a bad result it never
throws, while `value()` throws there. -/
theorem result_valueOr_spec {T : Type} [Inhabited T] (r : Result T) (d v : T) :
    (r.code.isBad = false → r.maybeValue = some v → r.valueOr d = v)
    ∧ (r.code.isBad = true → r.valueOr d = d ∧ r.value = .error r.code) := by
  constructor
  · intro hgood hv
    rw [Result.valueOr, Result.deref, hgood, hv]
    rfl
  · intro hbad
    refine ⟨?_, ?_⟩
    · rw [Result.valueOr, hbad]
      rfl
    · rw [Result.value, StatusCode.throwIfBad, hbad]
      rfl

/-- Witness for C10 at `T = Nat`: a good result keeps its value `7`, a bad
result yields the default `3`. -/
theorem result_valueOr_spec_witness :
    (Result.ofValue (7 : Nat)).valueOr 3 = 7
    ∧ (Result.ofBadResult (T := Nat) ⟨⟨2147483648⟩⟩).valueOr 3 = 3 :=
  ⟨(result_valueOr_spec (Result.ofValue 7) 3 7).1 (by decide) rfl,
   ((result_valueOr_spec (Result.ofBadResult ⟨⟨2147483648⟩⟩) 3 0).2 (by decide)).1⟩

end Opcua
